import Mathlib

/-!
Verification of the `aster` static source-analysis engine against its
specification.  The Go source is shallowly embedded: pure functions become
Lean functions, the filesystem side effects of the printer/writer become
explicit state passing over a filesystem record, and Go panics are modelled
as a distinguished `PreconditionError` value of an `Except` result (a panic
is fatal, so no code path may consume it as data).
-/

namespace Aster

/-- The `Kind` enumeration from the source: sentinel kinds, the 17 builtin
primitive kinds, and the composite kinds, in declaration order. -/
inductive Kind where
  | Invalid
  | Suspense
  | Bool
  | Int
  | Int8
  | Int16
  | Int32
  | Int64
  | Uint
  | Uint8
  | Uint16
  | Uint32
  | Uint64
  | Uintptr
  | Float32
  | Float64
  | Complex64
  | Complex128
  | String
  | Interface
  | Chan
  | Array
  | Slice
  | Map
  | Func
  | Struct
  | Ptr
  deriving DecidableEq, Repr

/-- Embedding of `getBasicKind`: the switch over the builtin primitive type
names, returning the pair `(k, found)`. The default branch returns
`(Invalid, false)`. -/
def getBasicKind (basicName : String) : Kind × Bool :=
  match basicName with
  | "bool" => (Kind.Bool, true)
  | "int" => (Kind.Int, true)
  | "int8" => (Kind.Int8, true)
  | "int16" => (Kind.Int16, true)
  | "int32" => (Kind.Int32, true)
  | "int64" => (Kind.Int64, true)
  | "uint" => (Kind.Uint, true)
  | "uint8" => (Kind.Uint8, true)
  | "uint16" => (Kind.Uint16, true)
  | "uint32" => (Kind.Uint32, true)
  | "uint64" => (Kind.Uint64, true)
  | "uintptr" => (Kind.Uintptr, true)
  | "float32" => (Kind.Float32, true)
  | "float64" => (Kind.Float64, true)
  | "complex64" => (Kind.Complex64, true)
  | "complex128" => (Kind.Complex128, true)
  | "string" => (Kind.String, true)
  | _ => (Kind.Invalid, false)

/-- The builtin classification table of §4.5: the 17 primitive identifiers
paired with their expected Kind. -/
def builtinKinds : List (String × Kind) :=
  [("bool", Kind.Bool), ("int", Kind.Int), ("int8", Kind.Int8),
   ("int16", Kind.Int16), ("int32", Kind.Int32), ("int64", Kind.Int64),
   ("uint", Kind.Uint), ("uint8", Kind.Uint8), ("uint16", Kind.Uint16),
   ("uint32", Kind.Uint32), ("uint64", Kind.Uint64),
   ("uintptr", Kind.Uintptr), ("float32", Kind.Float32),
   ("float64", Kind.Float64), ("complex64", Kind.Complex64),
   ("complex128", Kind.Complex128), ("string", Kind.String)]

/-- C1: the table has exactly the 17 builtin primitive identifiers; for each
of them `getBasicKind` returns the matching Kind with `found = true`, and for
every other string it returns `(Invalid, false)`. -/
theorem C1_getBasicKind :
    builtinKinds.length = 17 ∧
    (∀ p ∈ builtinKinds, getBasicKind p.1 = (p.2, true)) ∧
    (∀ s : String, s ∉ builtinKinds.map Prod.fst →
      getBasicKind s = (Kind.Invalid, false)) := by
  refine ⟨by decide, by decide, ?_⟩
  intro s hs
  simp only [builtinKinds, List.map, List.mem_cons, List.not_mem_nil, or_false,
    not_or] at hs
  obtain ⟨h1, h2, h3, h4, h5, h6, h7, h8, h9, h10, h11, h12, h13, h14, h15,
    h16, h17⟩ := hs
  unfold getBasicKind
  split <;> simp_all

/-- C1 witness: a non-builtin identifier classifies as `(Invalid, false)`,
via the theorem at the concrete input "myint". -/
theorem C1_getBasicKind_witness : getBasicKind "myint" = (Kind.Invalid, false) :=
  C1_getBasicKind.2.2 "myint" (by decide)

/-- The error taxonomy of §7.  `PreconditionError` models the Go `panic`
raised by the wrong-Kind guards in the source (always fatal); the other
constructors model recoverable error values. -/
inductive AsterError where
  | PreconditionError
  | DuplicateMethodError
  | ReceiverMismatchError
  | KindMismatchError
  deriving DecidableEq, Repr

/-- `FuncField` from the source: a function parameter or result, carrying a
name and a type name (the type name does not contain `*`). -/
structure FuncField where
  Name : String
  TypeName : String
  deriving DecidableEq, Repr

/-- `StructField` from the data model: a struct field entry with its name and
type name, produced in declaration order. -/
structure StructField where
  Name : String
  TypeName : String
  deriving DecidableEq, Repr

/-- A method in a TypeNode's method set: its name together with its parameter
type-name sequence and result type-name sequence, which is exactly the data
the Implements check of §4.4 compares by string equality. -/
structure Method where
  name : String
  params : List String
  results : List String
  deriving DecidableEq, Repr

/-- The `super` node state shared by both facades: the Kind tag plus the
variant data.  TypeNode data (method set, struct fields, assign flag) and
FuncNode data (parameters, results, variadic flag, receiver) live side by
side as in the Go `super` struct; which half is legal to query is decided by
the Kind guards. -/
structure NodeM where
  kind : Kind
  isAssign : Bool
  methods : List Method
  fields : List StructField
  params : List FuncField
  results : List FuncField
  variadic : Bool
  recv : Option FuncField
  deriving DecidableEq, Repr

/-- `List.find?` wrapper used by name lookups in a method set. -/
def findMethod (ms : List Method) (nm : String) : Option Method :=
  ms.find? (fun m => m.name == nm)

-- ------------------------ Kind: Func ------------------------

/-- `NumParam`.  The guard (`panic` unless Kind = Func) is from the source;
the body is Modelled from the spec: §4.3, the body in the source is a
placeholder.  Returns the declared parameter count. -/
def NumParam (s : NodeM) : Except AsterError Nat :=
  if s.kind ≠ Kind.Func then .error .PreconditionError
  else .ok s.params.length

/-- `NumResult`.  Guard from the source; body Modelled from the spec: §4.3
(the source body is a placeholder). -/
def NumResult (s : NodeM) : Except AsterError Nat :=
  if s.kind ≠ Kind.Func then .error .PreconditionError
  else .ok s.results.length

/-- `Param`.  Guard from the source; body Modelled from the spec: §4.3 —
0-indexed, a not-found result (`none`) when the index is out of range, never
a fatal error for an index.  The source body is a placeholder. -/
def Param (s : NodeM) (i : Nat) : Except AsterError (Option FuncField) :=
  if s.kind ≠ Kind.Func then .error .PreconditionError
  else .ok s.params[i]?

/-- `Result`.  Guard from the source; body Modelled from the spec: §4.3, as
for `Param`.  The source body is a placeholder. -/
def Result (s : NodeM) (i : Nat) : Except AsterError (Option FuncField) :=
  if s.kind ≠ Kind.Func then .error .PreconditionError
  else .ok s.results[i]?

/-- `IsVariadic`.  Guard from the source; body Modelled from the spec: §4.3
records whether the final declared parameter used the ellipsis form.  The
source body is a placeholder. -/
def IsVariadic (s : NodeM) : Except AsterError Bool :=
  if s.kind ≠ Kind.Func then .error .PreconditionError
  else .ok s.variadic

/-- `Recv`.  Guard from the source; body Modelled from the spec: §3 — the
optional receiver distinguishing a method from a free function.  The source
body is a placeholder. -/
def Recv (s : NodeM) : Except AsterError (Option FuncField) :=
  if s.kind ≠ Kind.Func then .error .PreconditionError
  else .ok s.recv

-- ------------------------ Type ------------------------

/-- `IsAssign`.  Guard from the source (`panic` when Kind = Func); body
Modelled from the spec: §3, the alias-vs-defined flag.  The source body is a
placeholder. -/
def IsAssign (s : NodeM) : Except AsterError Bool :=
  if s.kind = Kind.Func then .error .PreconditionError
  else .ok s.isAssign

/-- `NumMethod`.  Guard from the source; body Modelled from the spec: §3,
the size of the type's method set.  The source body is a placeholder. -/
def NumMethod (s : NodeM) : Except AsterError Nat :=
  if s.kind = Kind.Func then .error .PreconditionError
  else .ok s.methods.length

/-- `Method`.  Guard from the source; body Modelled from the spec: the i'th
method of the method set, with a found flag.  The source body is a
placeholder. -/
def MethodAt (s : NodeM) (i : Nat) : Except AsterError (Option Method) :=
  if s.kind = Kind.Func then .error .PreconditionError
  else .ok s.methods[i]?

/-- `MethodByName`.  Guard from the source; body Modelled from the spec: the
name lookup in the method set with a found flag.  The source body is a
placeholder. -/
def MethodByName (s : NodeM) (nm : String) : Except AsterError (Option Method) :=
  if s.kind = Kind.Func then .error .PreconditionError
  else .ok (findMethod s.methods nm)

/-- One required method of the interface is satisfied: the candidate's method
set holds a method of that name (first name match, names are unique) whose
parameter and result type-name sequences are string-equal. -/
def methodSatisfied (tms : List Method) (mu : Method) : Bool :=
  match findMethod tms mu.name with
  | some mt => mt.params == mu.params && mt.results == mu.results
  | none => false

/-- `Implements`.  Guard from the source (`panic` when the candidate's Kind
is Func); body Modelled from the spec: §4.4 — `KindMismatchError` when the
argument `u` is not Interface-kind, otherwise true iff every method of `u`'s
method set is matched by name with string-equal parameter and result
type-name sequences in the candidate's effective method set; a missing or
mismatched method yields false, not an error, whatever the candidate's Kind.
The source body is a placeholder. -/
def Implements (s u : NodeM) : Except AsterError Bool :=
  if s.kind = Kind.Func then .error .PreconditionError
  else if u.kind ≠ Kind.Interface then .error .KindMismatchError
  else .ok (u.methods.all (methodSatisfied s.methods))

/-- `addMethod`.  Guard from the source; body Modelled from the spec: §4.2 —
fails with `DuplicateMethodError` when a method of that name is already
attached (first occurrence wins, the original remains), otherwise appends
the new method.  The source body is a placeholder. -/
def addMethod (s : NodeM) (f : Method) : Except AsterError NodeM :=
  if s.kind = Kind.Func then .error .PreconditionError
  else if s.methods.any (fun m => m.name == f.name) then
    .error .DuplicateMethodError
  else .ok { s with methods := s.methods ++ [f] }

-- -------------- Only for Kind=Struct ---------------

/-- `NumField`.  Guard from the source (`panic` unless Kind = Struct); body
Modelled from the spec: §4.3, the length of the declaration-ordered field
list.  The source body is a placeholder. -/
def NumField (s : NodeM) : Except AsterError Nat :=
  if s.kind ≠ Kind.Struct then .error .PreconditionError
  else .ok s.fields.length

/-- `Field`.  Guard from the source; body Modelled from the spec: the i'th
field in declaration order; the source's contract says an out-of-range index
panics, modelled as `PreconditionError`.  The source body is a placeholder. -/
def Field (s : NodeM) (i : Nat) : Except AsterError StructField :=
  if s.kind ≠ Kind.Struct then .error .PreconditionError
  else match s.fields[i]? with
    | some f => .ok f
    | none => .error .PreconditionError

/-- `FieldByName`.  Guard from the source; body Modelled from the spec: §4.3
— matches only direct field names, returning the field with a found flag.
The source body is a placeholder. -/
def FieldByName (s : NodeM) (nm : String) : Except AsterError (Option StructField) :=
  if s.kind ≠ Kind.Struct then .error .PreconditionError
  else .ok (s.fields.find? (fun f => f.Name == nm))

/-- Modelled from the spec: §4.3 — the Function Signature Reflector part of
the builder is absent from the source; building a FuncNode separates the
receiver from the parameter list and detects variadic-ness from whether the
final declared parameter used the ellipsis form. -/
structure RawParam where
  name : String
  typeName : String
  ellipsis : Bool
  deriving DecidableEq, Repr

/-- Modelled from the spec: §4.3 — constructs the Func-kind node facade from
a declaration's receiver, parameter list and result list. -/
def buildFuncNode (rcv : Option FuncField) (ps : List RawParam)
    (rs : List FuncField) : NodeM :=
  { kind := Kind.Func
    isAssign := false
    methods := []
    fields := []
    params := ps.map (fun p => ⟨p.name, p.typeName⟩)
    results := rs
    variadic :=
      (match ps.getLast? with
       | some p => p.ellipsis
       | none => false)
    recv := rcv }

/-- When the method names of `tms` are pairwise distinct, the first-match
lookup in `methodSatisfied` agrees with existential membership. -/
theorem methodSatisfied_iff (tms : List Method) (mu : Method)
    (hnodup : (tms.map Method.name).Nodup) :
    methodSatisfied tms mu = true ↔
      ∃ mt ∈ tms, mt.name = mu.name ∧ mt.params = mu.params ∧
        mt.results = mu.results := by
  unfold methodSatisfied findMethod
  constructor
  · intro h
    cases hfind : tms.find? (fun m => m.name == mu.name) with
    | none => rw [hfind] at h; simp at h
    | some mt =>
      rw [hfind] at h
      have hmem := List.mem_of_find?_eq_some hfind
      have hp := List.find?_some hfind
      simp only [beq_iff_eq] at hp
      simp only [Bool.and_eq_true, beq_iff_eq] at h
      exact ⟨mt, hmem, hp, h.1, h.2⟩
  · rintro ⟨mt, hmem, hname, hparams, hresults⟩
    have hsome : (tms.find? (fun m => m.name == mu.name)).isSome := by
      rw [List.find?_isSome]
      exact ⟨mt, hmem, by simp [hname]⟩
    cases hfind : tms.find? (fun m => m.name == mu.name) with
    | none => rw [hfind] at hsome; simp at hsome
    | some mt2 =>
      have hmem2 := List.mem_of_find?_eq_some hfind
      have hp2 := List.find?_some hfind
      simp only [beq_iff_eq] at hp2
      have : mt2 = mt :=
        List.inj_on_of_nodup_map hnodup hmem2 hmem (by rw [hp2, hname])
      subst this
      simp [hparams, hresults]

/-- C2: for a candidate TypeNode `t` (Kind ≠ Func, unique method names) and
any node `u`: when `u` is not Interface-kind, `Implements` fails with
KindMismatchError; when `u` is Interface-kind it returns a Boolean (never an
error, whatever `t`'s non-Func Kind, Interface included) that is true iff
every method of `u`'s method set is matched in `t`'s method set by name with
string-equal parameter and result type-name sequences. -/
theorem C2_Implements (t u : NodeM) (ht : t.kind ≠ Kind.Func)
    (hnodup : (t.methods.map Method.name).Nodup) :
    (u.kind ≠ Kind.Interface →
      Implements t u = .error .KindMismatchError) ∧
    (u.kind = Kind.Interface →
      ∃ b, Implements t u = .ok b ∧
        (b = true ↔ ∀ mu ∈ u.methods, ∃ mt ∈ t.methods,
          mt.name = mu.name ∧ mt.params = mu.params ∧
            mt.results = mu.results)) := by
  constructor
  · intro hu
    simp [Implements, ht, hu]
  · intro hu
    refine ⟨u.methods.all (methodSatisfied t.methods), ?_, ?_⟩
    · simp [Implements, ht, hu]
    · rw [List.all_eq_true]
      constructor
      · intro h mu hmu
        exact (methodSatisfied_iff t.methods mu hnodup).mp (h mu hmu)
      · intro h mu hmu
        exact (methodSatisfied_iff t.methods mu hnodup).mpr (h mu hmu)

/-- Sample candidate type for the C2 witness: a Struct with one method
`Foo(int) string`. -/
def sampleT : NodeM :=
  { kind := Kind.Struct
    isAssign := false
    methods := [⟨"Foo", ["int"], ["string"]⟩]
    fields := []
    params := []
    results := []
    variadic := false
    recv := none }

/-- Sample interface for the C2 witness, requiring `Foo(int) string`. -/
def sampleU : NodeM :=
  { kind := Kind.Interface
    isAssign := false
    methods := [⟨"Foo", ["int"], ["string"]⟩]
    fields := []
    params := []
    results := []
    variadic := false
    recv := none }

/-- C2 witness: the theorem applied to the concrete sample nodes. -/
theorem C2_Implements_witness :
    ∃ b, Implements sampleT sampleU = .ok b ∧
      (b = true ↔ ∀ mu ∈ sampleU.methods, ∃ mt ∈ sampleT.methods,
        mt.name = mu.name ∧ mt.params = mu.params ∧
          mt.results = mu.results) :=
  (C2_Implements sampleT sampleU (by decide) (by decide)).2 (by rfl)

/-- C3: attaching a fresh-named method `f` succeeds; attaching a second
method of the same name to the result fails with DuplicateMethodError; the
resulting method set holds exactly one method of that name, namely the first
one attached; and uniqueness of method names is preserved. -/
theorem C3_addMethod (t : NodeM) (f g : Method) (hk : t.kind ≠ Kind.Func)
    (hfresh : ∀ m ∈ t.methods, m.name ≠ f.name) (hg : g.name = f.name) :
    ∃ t2, addMethod t f = .ok t2 ∧
      addMethod t2 g = .error .DuplicateMethodError ∧
      t2.methods.filter (fun m => m.name == f.name) = [f] ∧
      ((t.methods.map Method.name).Nodup →
        (t2.methods.map Method.name).Nodup) := by
  have hany : t.methods.any (fun m => m.name == f.name) = false := by
    rw [List.any_eq_false]
    intro m hm
    simp [hfresh m hm]
  refine ⟨{ t with methods := t.methods ++ [f] }, ?_, ?_, ?_, ?_⟩
  · simp [addMethod, hk, hany]
  · have hany2 : (t.methods ++ [f]).any (fun m => m.name == g.name) = true := by
      rw [List.any_eq_true]
      exact ⟨f, by simp, by simp [hg]⟩
    simp [addMethod, hk, hany2]
  · rw [List.filter_append]
    have h1 : t.methods.filter (fun m => m.name == f.name) = [] := by
      rw [List.filter_eq_nil_iff]
      intro m hm
      simp [hfresh m hm]
    rw [h1]
    simp
  · intro hnodup
    simp only [List.map_append, List.map_cons, List.map_nil]
    rw [List.nodup_append]
    refine ⟨hnodup, List.nodup_singleton _, ?_⟩
    intro a ha hb
    rw [List.mem_singleton] at hb
    subst hb
    obtain ⟨m, hm, hma⟩ := List.mem_map.mp ha
    exact hfresh m hm hma

/-- Sample TypeNode for the C3 witness: a methodless Struct. -/
def emptyStructT : NodeM :=
  { kind := Kind.Struct
    isAssign := false
    methods := []
    fields := []
    params := []
    results := []
    variadic := false
    recv := none }

/-- C3 witness: the theorem applied to the empty struct node and the method
`Foo` attached twice. -/
theorem C3_addMethod_witness :
    ∃ t2, addMethod emptyStructT ⟨"Foo", [], []⟩ = .ok t2 ∧
      addMethod t2 ⟨"Foo", [], []⟩ = .error .DuplicateMethodError ∧
      t2.methods.filter (fun m => m.name == "Foo") = [⟨"Foo", [], []⟩] ∧
      ((emptyStructT.methods.map Method.name).Nodup →
        (t2.methods.map Method.name).Nodup) :=
  C3_addMethod emptyStructT ⟨"Foo", [], []⟩ ⟨"Foo", [], []⟩ (by decide)
    (by intro m hm; simp [emptyStructT] at hm) rfl

/-- C4: a Struct-kind node whose field list is `[A int, B string]` reports
NumField = 2, Field 0 named "A", Field 1 named "B", FieldByName "A" found
and FieldByName "Z" not found; fields are indexed in declaration order and
FieldByName matches only direct field names. -/
theorem C4_structFields (t : NodeM) (hk : t.kind = Kind.Struct)
    (hf : t.fields = [⟨"A", "int"⟩, ⟨"B", "string"⟩]) :
    NumField t = .ok 2 ∧
    Field t 0 = .ok ⟨"A", "int"⟩ ∧
    Field t 1 = .ok ⟨"B", "string"⟩ ∧
    FieldByName t "A" = .ok (some ⟨"A", "int"⟩) ∧
    FieldByName t "Z" = .ok none := by
  refine ⟨?_, ?_, ?_, ?_, ?_⟩ <;>
    simp [NumField, Field, FieldByName, hk, hf, List.find?]

/-- Sample struct node for the C4 witness, declared with fields
`[A int, B string]`. -/
def sampleStructAB : NodeM :=
  { kind := Kind.Struct
    isAssign := false
    methods := []
    fields := [⟨"A", "int"⟩, ⟨"B", "string"⟩]
    params := []
    results := []
    variadic := false
    recv := none }

/-- C4 witness: the theorem applied to the concrete struct node. -/
theorem C4_structFields_witness :
    NumField sampleStructAB = .ok 2 ∧
    Field sampleStructAB 0 = .ok ⟨"A", "int"⟩ ∧
    Field sampleStructAB 1 = .ok ⟨"B", "string"⟩ ∧
    FieldByName sampleStructAB "A" = .ok (some ⟨"A", "int"⟩) ∧
    FieldByName sampleStructAB "Z" = .ok none :=
  C4_structFields sampleStructAB rfl rfl

/-- C5: on a Func-kind node, `Param` and `Result` answer an out-of-range
index with a not-found result (`none`), never a fatal error; the fatal
PreconditionError arises exactly when the node's Kind is not Func. -/
theorem C5_paramResultRange (n : NodeM) (i : Nat) :
    (n.kind = Kind.Func → n.params.length ≤ i → Param n i = .ok none) ∧
    (n.kind = Kind.Func → n.results.length ≤ i → Result n i = .ok none) ∧
    (n.kind ≠ Kind.Func →
      Param n i = .error .PreconditionError ∧
      Result n i = .error .PreconditionError) := by
  refine ⟨?_, ?_, ?_⟩
  · intro hk hlen
    simp [Param, hk, List.getElem?_eq_none hlen]
  · intro hk hlen
    simp [Result, hk, List.getElem?_eq_none hlen]
  · intro hk
    exact ⟨by simp [Param, hk], by simp [Result, hk]⟩

/-- Sample parameterless function node for the C5 witness. -/
def sampleFuncNoArgs : NodeM :=
  { kind := Kind.Func
    isAssign := false
    methods := []
    fields := []
    params := []
    results := []
    variadic := false
    recv := none }

/-- C5 witness: the theorem applied to the parameterless function node at
index 0, which is out of range for both parameters and results. -/
theorem C5_paramResultRange_witness :
    Param sampleFuncNoArgs 0 = .ok none ∧
    Result sampleFuncNoArgs 0 = .ok none :=
  ⟨(C5_paramResultRange sampleFuncNoArgs 0).1 rfl (by decide),
   (C5_paramResultRange sampleFuncNoArgs 0).2.1 rfl (by decide)⟩

/-- C6: the wrong-Kind guards from the source — every Func-only operation
invoked on a node whose Kind is not Func, and every TypeNode-only operation
invoked on a Func-kind node, yields the fatal PreconditionError (the model
of the Go panic), never a recoverable result. -/
theorem C6_kindGuards (n u : NodeM) (i : Nat) (nm : String) (f : Method) :
    (n.kind ≠ Kind.Func →
      NumParam n = .error .PreconditionError ∧
      NumResult n = .error .PreconditionError ∧
      Param n i = .error .PreconditionError ∧
      Result n i = .error .PreconditionError ∧
      IsVariadic n = .error .PreconditionError ∧
      Recv n = .error .PreconditionError) ∧
    (n.kind = Kind.Func →
      IsAssign n = .error .PreconditionError ∧
      NumMethod n = .error .PreconditionError ∧
      MethodAt n i = .error .PreconditionError ∧
      MethodByName n nm = .error .PreconditionError ∧
      Implements n u = .error .PreconditionError ∧
      addMethod n f = .error .PreconditionError ∧
      NumField n = .error .PreconditionError ∧
      Field n i = .error .PreconditionError ∧
      FieldByName n nm = .error .PreconditionError) := by
  constructor
  · intro hk
    refine ⟨?_, ?_, ?_, ?_, ?_, ?_⟩ <;>
      simp [NumParam, NumResult, Param, Result, IsVariadic, Recv, hk]
  · intro hk
    refine ⟨?_, ?_, ?_, ?_, ?_, ?_, ?_, ?_, ?_⟩ <;>
      simp [IsAssign, NumMethod, MethodAt, MethodByName, Implements,
        addMethod, NumField, Field, FieldByName, hk]

/-- C6 witness: the guards evaluated on the concrete struct node (for the
Func-only operations) and on the concrete function node (for the
TypeNode-only operations). -/
theorem C6_kindGuards_witness :
    NumParam sampleStructAB = .error .PreconditionError ∧
    IsAssign sampleFuncNoArgs = .error .PreconditionError ∧
    NumField sampleFuncNoArgs = .error .PreconditionError :=
  ⟨((C6_kindGuards sampleStructAB sampleU 0 "Foo" ⟨"Foo", [], []⟩).1
      (by decide)).1,
   ((C6_kindGuards sampleFuncNoArgs sampleU 0 "Foo" ⟨"Foo", [], []⟩).2
      rfl).1,
   ((C6_kindGuards sampleFuncNoArgs sampleU 0 "Foo" ⟨"Foo", [], []⟩).2
      rfl).2.2.2.2.2.2.1⟩

/-- C7: a function declaration whose final parameter uses the ellipsis form
builds a node with IsVariadic = true, and NumParam equals the length of the
declared parameter list, counting the variadic parameter exactly once. -/
theorem C7_variadic (rcv : Option FuncField) (ps : List RawParam)
    (rs : List FuncField) (p : RawParam)
    (hlast : ps.getLast? = some p) (hell : p.ellipsis = true) :
    IsVariadic (buildFuncNode rcv ps rs) = .ok true ∧
    NumParam (buildFuncNode rcv ps rs) = .ok ps.length := by
  constructor
  · simp [IsVariadic, buildFuncNode, hlast, hell]
  · simp [NumParam, buildFuncNode]

/-- C7 witness: the declaration `func(x int, y ...float64)` reports
IsVariadic = true and NumParam = 2. -/
theorem C7_variadic_witness :
    IsVariadic (buildFuncNode none
      [⟨"x", "int", false⟩, ⟨"y", "float64", true⟩] []) = .ok true ∧
    NumParam (buildFuncNode none
      [⟨"x", "int", false⟩, ⟨"y", "float64", true⟩] []) = .ok 2 :=
  C7_variadic none [⟨"x", "int", false⟩, ⟨"y", "float64", true⟩] []
    ⟨"y", "float64", true⟩ rfl rfl

-- ------------------------ format.go ------------------------

/-- A Go source file as seen by the printer/writer: its filename together
with the (deterministic) outcome of `go/format.Node` on its syntax tree,
which is what `File.Format` returns. -/
structure FileM where
  Filename : String
  formatResult : Except String String
  deriving Repr

/-- Filesystem state for the shallow embedding of the `os` calls in
`writeFile`: the set of existing directories and the file contents, the
latter as an association list where the head entry shadows older ones. -/
structure FS where
  dirs : List String
  files : List (String × String)
  deriving DecidableEq, Repr

/-- First-match lookup in the file association list. -/
def lookupFile (files : List (String × String)) (a : String) : Option String :=
  (files.find? (fun kv => kv.1 == a)).map Prod.snd

/-- The content stored under path `a`, if any. -/
def getFile (fs : FS) (a : String) : Option String :=
  lookupFile fs.files a

/-- Oracle for the OS-dependent outcomes inside `writeFile`:
`filepath.Abs`, `filepath.Dir`, and the success of `os.MkdirAll`,
`os.Create` and `f.Write`. -/
structure WriteOracle where
  absOf : String → Except String String
  dirOf : String → String
  mkdirOk : String → Bool
  createOk : String → Bool
  writeOk : String → Bool

/-- The absolute path a filename resolves to (its own name when `Abs`
fails, in which case `writeFile` aborts before using it). -/
def absName (wo : WriteOracle) (k : String) : String :=
  match wo.absOf k with
  | .ok a => a
  | .error _ => k

/-- All four OS steps of `writeFile` succeed for this filename. -/
def writeSucceeds (wo : WriteOracle) (k : String) : Bool :=
  match wo.absOf k with
  | .error _ => false
  | .ok a => wo.mkdirOk (wo.dirOf a) && wo.createOk a && wo.writeOk a

/-- Embedding of `writeFile`: resolve the absolute path, create the parent
directory, create (truncate) the file, write the text.  Each step may fail,
returning the error and leaving the filesystem as the completed steps left
it; `os.Create` truncates, so a failing `Write` leaves an empty file. -/
def writeFile (wo : WriteOracle) (fs : FS) (k text : String) :
    FS × Option String :=
  match wo.absOf k with
  | .error e => (fs, some e)
  | .ok a =>
    let dir := wo.dirOf a
    if wo.mkdirOk dir then
      let fs1 : FS :=
        { fs with dirs := if dir ∈ fs.dirs then fs.dirs else dir :: fs.dirs }
      if wo.createOk a then
        if wo.writeOk a then
          ({ fs1 with files := (a, text) :: fs1.files }, none)
        else
          ({ fs1 with files := (a, "") :: fs1.files }, some "write error")
      else (fs1, some "create error")
    else (fs, some "mkdir error")

/-- The write loop shared by `Module.Store` and `Package.Store`: write each
rendered entry in turn, returning on the first failure. -/
def storeCodes (wo : WriteOracle) (fs : FS) :
    List (String × String) → FS × Option String
  | [] => (fs, none)
  | (k, v) :: rest =>
    match writeFile wo fs k v with
    | (fs1, none) => storeCodes wo fs1 rest
    | (fs1, some e) => (fs1, some e)

/-- Embedding of the loop of `Package.Format`: format each file in turn,
accumulating `(filename, code)` entries, returning the entries so far
together with the first formatting error when one occurs. -/
def packageFormatAux (acc : List (String × String)) :
    List FileM → List (String × String) × Option String
  | [] => (acc, none)
  | f :: rest =>
    match f.formatResult with
    | .error e => (acc, some e)
    | .ok code => packageFormatAux (acc ++ [(f.Filename, code)]) rest

/-- `Package.Format`: `codes` maps filename to rendered code. -/
def PackageFormat (files : List FileM) :
    List (String × String) × Option String :=
  packageFormatAux [] files

/-- `Package.Store`: format the whole package first; on a formatting error
return it without writing, otherwise run the write loop. -/
def PackageStore (wo : WriteOracle) (files : List FileM) (fs : FS) :
    FS × Option String :=
  match PackageFormat files with
  | (_, some e) => (fs, some e)
  | (codes, none) => storeCodes wo fs codes

/-- Embedding of the loop of `Module.Format`: format each package in turn,
returning the per-package code maps or the first formatting error. -/
def moduleFormatAux (acc : List (String × List (String × String))) :
    List (String × List FileM) →
      List (String × List (String × String)) × Option String
  | [] => (acc, none)
  | (pname, pfiles) :: rest =>
    match PackageFormat pfiles with
    | (_, some e) => (acc, some e)
    | (subcodes, none) => moduleFormatAux (acc ++ [(pname, subcodes)]) rest

/-- `Module.Format`. -/
def ModuleFormat (pkgs : List (String × List FileM)) :
    List (String × List (String × String)) × Option String :=
  moduleFormatAux [] pkgs

/-- The nested write loops of `Module.Store`: write each package's rendered
files in turn, returning on the first failure. -/
def moduleWriteAux (wo : WriteOracle) (fs : FS) :
    List (String × List (String × String)) → FS × Option String
  | [] => (fs, none)
  | (_, codes) :: rest =>
    match storeCodes wo fs codes with
    | (fs1, none) => moduleWriteAux wo fs1 rest
    | (fs1, some e) => (fs1, some e)

/-- `Module.Store`: format the whole module first; on a formatting error
return it without writing, otherwise run the nested write loops. -/
def ModuleStore (wo : WriteOracle) (pkgs : List (String × List FileM))
    (fs : FS) : FS × Option String :=
  match ModuleFormat pkgs with
  | (_, some e) => (fs, some e)
  | (codes, none) => moduleWriteAux wo fs codes

/-- `File.Format`: the formatting outcome of the file's syntax tree. -/
def FileFormat (f : FileM) : Except String String :=
  f.formatResult

/-- Embedding of `File.String`: on a formatting error the result is the
`fmt.Sprintf("// Formatting error: %s", ...)` text, otherwise the formatted
source. -/
def FileString (f : FileM) : String :=
  match FileFormat f with
  | .error e => "// Formatting error: " ++ e
  | .ok s => s

theorem lookupFile_cons_self (k v : String) (files : List (String × String)) :
    lookupFile ((k, v) :: files) k = some v := by
  unfold lookupFile
  rw [List.find?_cons_of_pos _ (by simp)]
  rfl

theorem lookupFile_cons_ne (k v a : String) (files : List (String × String))
    (h : a ≠ k) :
    lookupFile ((k, v) :: files) a = lookupFile files a := by
  unfold lookupFile
  rw [List.find?_cons_of_neg _ (by simp only [beq_iff_eq]; exact Ne.symm h)]

/-- When every OS step succeeds, `writeFile` records the parent directory
and prepends the file entry, reporting no error. -/
theorem writeFile_of_succeeds (wo : WriteOracle) (fs : FS) (k v : String)
    (h : writeSucceeds wo k = true) :
    writeFile wo fs k v =
      ({ dirs := if wo.dirOf (absName wo k) ∈ fs.dirs then fs.dirs
                 else wo.dirOf (absName wo k) :: fs.dirs,
         files := (absName wo k, v) :: fs.files }, none) := by
  unfold writeSucceeds at h
  unfold writeFile absName
  cases habs : wo.absOf k with
  | error e => rw [habs] at h; simp at h
  | ok a =>
    rw [habs] at h
    simp only [Bool.and_eq_true] at h
    obtain ⟨⟨h1, h2⟩, h3⟩ := h
    simp [h1, h2, h3]

/-- When an OS step fails, `writeFile` reports an error, only ever adds to
the directory set, and leaves every path other than the target unchanged. -/
theorem writeFile_of_fails (wo : WriteOracle) (fs : FS) (k v : String)
    (h : writeSucceeds wo k = false) :
    ∃ fs1 e, writeFile wo fs k v = (fs1, some e) ∧
      fs.dirs ⊆ fs1.dirs ∧
      (∀ a, a ≠ absName wo k →
        lookupFile fs1.files a = lookupFile fs.files a) := by
  unfold writeSucceeds at h
  unfold writeFile absName
  cases habs : wo.absOf k with
  | error e =>
    exact ⟨fs, e, rfl, fun d hd => hd, fun a _ => rfl⟩
  | ok a =>
    rw [habs] at h
    have h0 : (wo.mkdirOk (wo.dirOf a) && wo.createOk a && wo.writeOk a)
        = false := h
    cases h1 : wo.mkdirOk (wo.dirOf a) with
    | false =>
      refine ⟨fs, "mkdir error", ?_, fun d hd => hd, fun a _ => rfl⟩
      simp [h1]
    | true =>
      cases h2 : wo.createOk a with
      | false =>
        refine ⟨{ fs with dirs := if wo.dirOf a ∈ fs.dirs then fs.dirs
                  else wo.dirOf a :: fs.dirs }, "create error", ?_, ?_, ?_⟩
        · simp [h1, h2]
        · intro d hd
          by_cases hmem : wo.dirOf a ∈ fs.dirs <;> simp [hmem, hd]
        · intro b _
          rfl
      | true =>
        cases h3 : wo.writeOk a with
        | true => rw [h1, h2, h3] at h0; simp at h0
        | false =>
          refine ⟨{ dirs := if wo.dirOf a ∈ fs.dirs then fs.dirs
                    else wo.dirOf a :: fs.dirs,
                    files := (a, "") :: fs.files }, "write error",
                  ?_, ?_, ?_⟩
          · simp [h1, h2, h3]
          · intro d hd
            by_cases hmem : wo.dirOf a ∈ fs.dirs <;> simp [hmem, hd]
          · intro b hb
            exact lookupFile_cons_ne a "" b fs.files hb

/-- Master lemma for the batch write loop: with all entries before a failing
one succeeding, the loop writes the earlier entries (creating their parent
directories), stops with an error at the failing entry, and leaves every
other path untouched. -/
theorem storeCodes_abort_aux (wo : WriteOracle) (k v : String)
    (post : List (String × String)) (hfail : writeSucceeds wo k = false) :
    ∀ (pre : List (String × String)) (fs : FS),
      (∀ kv ∈ pre, writeSucceeds wo kv.1 = true) →
      ((pre.map fun kv => absName wo kv.1).Nodup) →
      ((absName wo k) ∉ pre.map fun kv => absName wo kv.1) →
      ∃ fs2 e, storeCodes wo fs (pre ++ (k, v) :: post) = (fs2, some e) ∧
        (∀ kv ∈ pre, getFile fs2 (absName wo kv.1) = some kv.2) ∧
        (∀ kv ∈ pre, wo.dirOf (absName wo kv.1) ∈ fs2.dirs) ∧
        (∀ a, (a ∉ pre.map fun kv => absName wo kv.1) → a ≠ absName wo k →
          getFile fs2 a = getFile fs a) ∧
        fs.dirs ⊆ fs2.dirs := by
  intro pre
  induction pre with
  | nil =>
    intro fs _ _ _
    obtain ⟨fs1, e, hw, hdirs, hpres⟩ := writeFile_of_fails wo fs k v hfail
    refine ⟨fs1, e, ?_, by simp, by simp, ?_, hdirs⟩
    · simp only [List.nil_append, storeCodes, hw]
    · intro a _ hak
      exact hpres a hak
  | cons kv0 pre ih =>
    obtain ⟨k0, v0⟩ := kv0
    intro fs hpre hnodup hknotin
    have hs0 : writeSucceeds wo k0 = true := hpre (k0, v0) (by simp)
    have hw := writeFile_of_succeeds wo fs k0 v0 hs0
    simp only [List.map_cons, List.nodup_cons, List.mem_cons] at hnodup hknotin
    push_neg at hknotin
    obtain ⟨hk0notin, hnodup⟩ := hnodup
    obtain ⟨hkne0, hknotin⟩ := hknotin
    obtain ⟨fs2, e, hst, hwrote, hdirs2, hpres2, hsub2⟩ :=
      ih _ (fun kv hkv => hpre kv (List.mem_cons_of_mem _ hkv)) hnodup hknotin
    refine ⟨fs2, e, ?_, ?_, ?_, ?_, ?_⟩
    · simp only [List.cons_append, storeCodes, hw]
      exact hst
    · intro kv hkv
      rcases List.mem_cons.mp hkv with h | h
      · subst h
        rw [hpres2 (absName wo k0) hk0notin (fun hh => hkne0 hh.symm)]
        exact lookupFile_cons_self (absName wo k0) v0 fs.files
      · exact hwrote kv h
    · intro kv hkv
      rcases List.mem_cons.mp hkv with h | h
      · subst h
        apply hsub2
        by_cases hmem : wo.dirOf (absName wo k0) ∈ fs.dirs <;> simp [hmem]
      · exact hdirs2 kv h
    · intro a ha hak
      simp only [List.map_cons, List.mem_cons] at ha
      push_neg at ha
      obtain ⟨ha0, ha⟩ := ha
      rw [hpres2 a ha hak]
      exact lookupFile_cons_ne (absName wo k0) v0 a fs.files ha0
    · intro d hd
      apply hsub2
      by_cases hmem : wo.dirOf (absName wo k0) ∈ fs.dirs <;> simp [hmem, hd]

/-- C8: a batch persistence run over rendered entries writes each entry in
turn with its parent directory created, and the first failing write aborts
the batch: every entry before the failure is stored with its rendered text
and its directory present, and every entry after the failure keeps whatever
content (if any) storage held before the run. -/
theorem C8_storeAborts (wo : WriteOracle) (fs : FS)
    (pre post : List (String × String)) (k v : String)
    (hpre : ∀ kv ∈ pre, writeSucceeds wo kv.1 = true)
    (hfail : writeSucceeds wo k = false)
    (hnodup : (((pre ++ (k, v) :: post).map fun kv => absName wo kv.1)).Nodup) :
    ∃ fs2 e, storeCodes wo fs (pre ++ (k, v) :: post) = (fs2, some e) ∧
      (∀ kv ∈ pre, getFile fs2 (absName wo kv.1) = some kv.2) ∧
      (∀ kv ∈ pre, wo.dirOf (absName wo kv.1) ∈ fs2.dirs) ∧
      (∀ kv ∈ post, getFile fs2 (absName wo kv.1) =
        getFile fs (absName wo kv.1)) := by
  rw [List.map_append, List.map_cons, List.nodup_append] at hnodup
  obtain ⟨hnpre, hntail, hdisj⟩ := hnodup
  rw [List.nodup_cons] at hntail
  obtain ⟨hkpost, _⟩ := hntail
  have hknotin : (absName wo k) ∉ pre.map fun kv => absName wo kv.1 :=
    fun hmem => hdisj hmem (List.mem_cons_self _ _)
  obtain ⟨fs2, e, hst, hwrote, hdirs, hpres, _⟩ :=
    storeCodes_abort_aux wo k v post hfail pre fs hpre hnpre hknotin
  refine ⟨fs2, e, hst, hwrote, hdirs, ?_⟩
  intro kv hkv
  have h1 : absName wo kv.1 ∉ pre.map fun kv => absName wo kv.1 := by
    intro hmem
    exact hdisj hmem
      (List.mem_cons_of_mem _ (List.mem_map_of_mem _ hkv))
  have h2 : absName wo kv.1 ≠ absName wo k := by
    intro hh
    exact hkpost (hh ▸ List.mem_map_of_mem _ hkv)
  exact hpres (absName wo kv.1) h1 h2

/-- Concrete oracle for the C8 witness: paths are already absolute, all
files share the parent directory "out", and creating "b" fails (an
unwritable entry), everything else succeeds. -/
def sampleOracle : WriteOracle :=
  { absOf := fun a => .ok a
    dirOf := fun _ => "out"
    mkdirOk := fun _ => true
    createOk := fun a => a != "b"
    writeOk := fun _ => true }

/-- C8 witness: of three rendered files the second fails to write; the
first file's output is stored and the third is never written. -/
theorem C8_storeAborts_witness :
    ∃ fs2 e, storeCodes sampleOracle ⟨[], []⟩
        ([("a", "A")] ++ ("b", "B") :: [("c", "C")]) = (fs2, some e) ∧
      (∀ kv ∈ [("a", "A")],
        getFile fs2 (absName sampleOracle kv.1) = some kv.2) ∧
      (∀ kv ∈ [("a", "A")],
        sampleOracle.dirOf (absName sampleOracle kv.1) ∈ fs2.dirs) ∧
      (∀ kv ∈ [("c", "C")], getFile fs2 (absName sampleOracle kv.1) =
        getFile ⟨[], []⟩ (absName sampleOracle kv.1)) :=
  C8_storeAborts sampleOracle ⟨[], []⟩ [("a", "A")] [("c", "C")] "b" "B"
    (by decide) (by decide) (by decide)

/-- When the format loop reports no error it visited every file
successfully; contrapositively, a file with a formatting error forces the
loop to surface an error that belongs to one of the files. -/
theorem packageFormatAux_err (files : List FileM) :
    ∀ (acc : List (String × String)) (g : FileM) (e : String),
      g ∈ files → g.formatResult = Except.error e →
      ∃ acc2 e2, packageFormatAux acc files = (acc2, some e2) ∧
        ∃ f2 ∈ files, f2.formatResult = Except.error e2 := by
  induction files with
  | nil =>
    intro acc g e hg _
    simp at hg
  | cons f rest ih =>
    intro acc g e hg he
    cases hf : f.formatResult with
    | error e0 =>
      exact ⟨acc, e0, by simp [packageFormatAux, hf], f, by simp, hf⟩
    | ok code =>
      rcases List.mem_cons.mp hg with h | h
      · subst h
        rw [hf] at he
        cases he
      · obtain ⟨acc2, e2, hpf, f2, hf2, hr⟩ :=
          ih (acc ++ [(f.Filename, code)]) g e h he
        exact ⟨acc2, e2, by simp [packageFormatAux, hf, hpf],
          f2, List.mem_cons_of_mem _ hf2, hr⟩

/-- An error surfaced by the format loop always belongs to one of the
files. -/
theorem packageFormatAux_some (files : List FileM) :
    ∀ (acc acc2 : List (String × String)) (e2 : String),
      packageFormatAux acc files = (acc2, some e2) →
      ∃ f2 ∈ files, f2.formatResult = Except.error e2 := by
  induction files with
  | nil =>
    intro acc acc2 e2 h
    simp [packageFormatAux] at h
  | cons f rest ih =>
    intro acc acc2 e2 h
    cases hf : f.formatResult with
    | error e0 =>
      simp [packageFormatAux, hf] at h
      exact ⟨f, by simp, by rw [hf, h.2]⟩
    | ok code =>
      simp only [packageFormatAux, hf] at h
      obtain ⟨f2, hf2, hr⟩ := ih (acc ++ [(f.Filename, code)]) acc2 e2 h
      exact ⟨f2, List.mem_cons_of_mem _ hf2, hr⟩

/-- As `packageFormatAux_err`, one level up: a formatting error in any
package's file forces the module format loop to surface an error belonging
to some file of some package. -/
theorem moduleFormatAux_err (pkgs : List (String × List FileM)) :
    ∀ (acc : List (String × List (String × String))) (pn : String)
      (pfs : List FileM) (g : FileM) (e : String),
      (pn, pfs) ∈ pkgs → g ∈ pfs → g.formatResult = Except.error e →
      ∃ acc2 e2, moduleFormatAux acc pkgs = (acc2, some e2) ∧
        ∃ pn2 pfs2 f2, (pn2, pfs2) ∈ pkgs ∧ f2 ∈ pfs2 ∧
          f2.formatResult = Except.error e2 := by
  induction pkgs with
  | nil =>
    intro acc pn pfs g e hp _ _
    simp at hp
  | cons q rest ih =>
    obtain ⟨qn, qfs⟩ := q
    intro acc pn pfs g e hp hg he
    cases hq : PackageFormat qfs with
    | mk qcodes qerr =>
      cases qerr with
      | some e0 =>
        refine ⟨acc, e0, by simp [moduleFormatAux, hq], ?_⟩
        obtain ⟨f2, hf2, hr⟩ :=
          packageFormatAux_some qfs [] qcodes e0 hq
        exact ⟨qn, qfs, f2, by simp, hf2, hr⟩
      | none =>
        rcases List.mem_cons.mp hp with h | h
        · rw [Prod.mk.injEq] at h
          obtain ⟨h1, h2⟩ := h
          subst h1
          subst h2
          obtain ⟨acc2, e2, hpf, _⟩ :=
            packageFormatAux_err pfs [] g e hg he
          rw [show packageFormatAux [] pfs = PackageFormat pfs from rfl,
            hq] at hpf
          simp at hpf
        · obtain ⟨acc2, e2, hmf, pn2, pfs2, f2, hmem, hf2, hr⟩ :=
            ih (acc ++ [(qn, qcodes)]) pn pfs g e h hg he
          exact ⟨acc2, e2, by simp [moduleFormatAux, hq, hmf],
            pn2, pfs2, f2, List.mem_cons_of_mem _ hmem, hf2, hr⟩

/-- C9: both store variants format everything before writing anything — a
formatting error in any file makes `Package.Store` (resp. `Module.Store`)
return an error that is some file's formatting error, with the filesystem
state returned exactly as it was (nothing written). -/
theorem C9_formatErrorNoWrites (wo : WriteOracle) (fs : FS)
    (files : List FileM) (pkgs : List (String × List FileM))
    (g : FileM) (e : String) (he : g.formatResult = Except.error e) :
    (g ∈ files →
      ∃ e2, PackageStore wo files fs = (fs, some e2) ∧
        ∃ f2 ∈ files, f2.formatResult = Except.error e2) ∧
    (∀ pn pfs, (pn, pfs) ∈ pkgs → g ∈ pfs →
      ∃ e2, ModuleStore wo pkgs fs = (fs, some e2) ∧
        ∃ pn2 pfs2 f2, (pn2, pfs2) ∈ pkgs ∧ f2 ∈ pfs2 ∧
          f2.formatResult = Except.error e2) := by
  constructor
  · intro hg
    obtain ⟨acc2, e2, hpf, hf2⟩ := packageFormatAux_err files [] g e hg he
    refine ⟨e2, ?_, hf2⟩
    unfold PackageStore PackageFormat
    rw [hpf]
  · intro pn pfs hp hg
    obtain ⟨acc2, e2, hmf, hf2⟩ :=
      moduleFormatAux_err pkgs [] pn pfs g e hp hg he
    refine ⟨e2, ?_, hf2⟩
    unfold ModuleStore ModuleFormat
    rw [hmf]

/-- A file whose formatting fails, for the C9 and C10 witnesses. -/
def badFile : FileM := ⟨"bad.go", Except.error "syntax error"⟩

/-- A file whose formatting succeeds, for the C10 witness. -/
def goodFile : FileM := ⟨"good.go", Except.ok "package p"⟩

/-- C9 witness: storing a one-file package whose file fails to format
returns the formatting error and leaves the empty filesystem unchanged. -/
theorem C9_formatErrorNoWrites_witness :
    ∃ e2, PackageStore sampleOracle [badFile] ⟨[], []⟩ =
        (⟨[], []⟩, some e2) ∧
      ∃ f2 ∈ [badFile], f2.formatResult = Except.error e2 :=
  (C9_formatErrorNoWrites sampleOracle ⟨[], []⟩ [badFile] []
    badFile "syntax error" rfl).1 (by simp)

/-- C10: `File.String` is total — a formatting error yields the text
`// Formatting error: ` followed by the error message (no error escapes,
no panic), and a formatting success yields the formatted source. -/
theorem C10_fileStringTotal (f : FileM) :
    (∀ e, FileFormat f = Except.error e →
      FileString f = "// Formatting error: " ++ e) ∧
    (∀ s, FileFormat f = Except.ok s → FileString f = s) := by
  constructor
  · intro e he
    simp [FileString, he]
  · intro s hs
    simp [FileString, hs]

/-- C10 witness: the theorem applied to the concrete failing and succeeding
files. -/
theorem C10_fileStringTotal_witness :
    FileString badFile = "// Formatting error: " ++ "syntax error" ∧
    FileString goodFile = "package p" :=
  ⟨(C10_fileStringTotal badFile).1 "syntax error" rfl,
   (C10_fileStringTotal goodFile).2 "package p" rfl⟩

end Aster
